import Mathlib

/-!
Verification of the retrieval core of the RAG agent repository
(`rag_agent.py`, `enhanced_rag_agent.py`) against its specification.

The Python code is shallowly embedded: strings are Lean `String`s,
Python lists are Lean `List`s, Python `int`s are `Int`/`Nat`, and the
single floating-point computation of the code (the `0.7` duplicate
threshold in `SimpleRAGAgent.search_knowledge`) is embedded exactly as
an IEEE-754 binary64 computation carried out in exact integer
arithmetic.  Fallible Python operations (`range` with zero step raises
`ValueError`) are embedded in `Except`.
-/

namespace RagAgent

/-! ## Python string primitives -/

/-- Python `str.lower()` (ASCII case folding, which is all the corpus uses). -/
def pyLower (s : String) : String :=
  String.mk (s.toList.map Char.toLower)

/-- Worker for `str.split()` with no argument: split on runs of whitespace,
discarding empty pieces.  `acc` holds the reversed characters of the word
currently being read. -/
def pySplitAux : List Char → List Char → List String
  | [], [] => []
  | [], acc => [String.mk acc.reverse]
  | c :: cs, acc =>
    if c.isWhitespace then
      if acc = [] then pySplitAux cs []
      else String.mk acc.reverse :: pySplitAux cs []
    else pySplitAux cs (c :: acc)

/-- Python `s.split()`: whitespace-delimited tokens, no empties. -/
def pySplit (s : String) : List String :=
  pySplitAux s.toList []

/-- Worker for `s.split('\n')`: split on each newline, keeping empty pieces. -/
def pySplitNlAux : List Char → List Char → List String
  | [], acc => [String.mk acc.reverse]
  | c :: cs, acc =>
    if c = '\n' then String.mk acc.reverse :: pySplitNlAux cs []
    else pySplitNlAux cs (c :: acc)

/-- Python `s.split('\n')`. -/
def pySplitNl (s : String) : List String :=
  pySplitNlAux s.toList []

/-- Python `needle in hay` for strings: contiguous-substring test. -/
def pyIn (needle hay : String) : Bool :=
  decide (needle.toList <:+: hay.toList)

/-- Python `s.replace(old, new)`: left-to-right non-overlapping replacement,
on character lists.  (For `old = []` we return `s`; the agent only replaces
non-empty markers.)  The `fuel` argument makes the recursion structural;
`fuel = s.length` always suffices, since each step consumes at least one
character of `s`. -/
def pyReplaceAux (old new : List Char) : Nat → List Char → List Char
  | 0, s => s
  | _ + 1, [] => []
  | fuel + 1, c :: cs =>
    if old ≠ [] ∧ old.isPrefixOf (c :: cs) then
      new ++ pyReplaceAux old new fuel ((c :: cs).drop old.length)
    else
      c :: pyReplaceAux old new fuel cs

/-- Python `s.replace(old, new)` on strings. -/
def pyReplace (s old new : String) : String :=
  String.mk (pyReplaceAux old.toList new.toList s.toList.length s.toList)

/-- Python's clamping of one slice bound `i` of `l[a:b]` into `[0, len]`. -/
def pySliceIdx (len : Nat) (i : Int) : Nat :=
  if i < 0 then (len - (-i).toNat) else min i.toNat len

/-- Python list slice `l[a:b]` (step 1, possibly negative bounds). -/
def pySlice (l : List α) (a b : Int) : List α :=
  (l.take (pySliceIdx l.length b)).drop (pySliceIdx l.length a)

/-- Python `' '.join(words)`. -/
def pyJoin (sep : String) (l : List String) : String :=
  String.intercalate sep l

/-! ## Chunker (`DocumentProcessor.process_document`, enhanced_rag_agent.py)

```python
def process_document(self, text: str) -> List[str]:
    if not text:
        return []
    tokens = text.split()
    chunks: List[str] = []
    step = self.chunk_size - self.overlap
    for i in range(0, max(len(tokens) - self.overlap, 0), step):
        chunk = tokens[i : i + self.chunk_size]
        chunks.append(" ".join(chunk))
    return chunks
```
-/

/-- Python `range(0, stop, step)` for `stop ≥ 0`: raises `ValueError` when
`step = 0`, is empty when `step < 0`, and otherwise lists
`0, step, 2*step, …` below `stop`. -/
def pyRange0 (stop : Nat) (step : Int) : Except String (List Int) :=
  if step = 0 then .error "ValueError: range() arg 3 must not be zero"
  else if 0 < step then
    .ok (((List.range ((stop + step.toNat - 1) / step.toNat)).map
      (fun (k : Nat) => (k : Int) * step)))
  else .ok []

/-- `DocumentProcessor.process_document`, embedded verbatim (the `@timeit`
decorator only logs; it does not change the result). -/
def process_document (chunk_size overlap : Int) (text : String) :
    Except String (List String) := do
  if text = "" then return []
  let tokens := pySplit text
  let step := chunk_size - overlap
  let starts ← pyRange0 ((max ((tokens.length : Int) - overlap) 0).toNat) step
  return starts.map (fun i => pyJoin " " (pySlice tokens i (i + chunk_size)))

/-- The token windows produced by `process_document` for a valid
configuration (`overlap < chunk_size`, both naturals), before joining each
window back into a string. -/
def chunkWindows (chunk_size overlap : Nat) (tokens : List String) :
    List (List String) :=
  let step := chunk_size - overlap
  let n := (tokens.length - overlap + step - 1) / step
  (List.range n).map (fun k => (tokens.drop (k * step)).take chunk_size)

/-- Concatenation of the windows' non-overlapping portions: the first window
whole, every later window minus its first `overlap` tokens. -/
def reconstruct (overlap : Nat) : List (List String) → List String
  | [] => []
  | c :: cs => c ++ (cs.map (List.drop overlap)).flatten

/-! ## Relevance scorer (`SimpleRAGAgent.search_knowledge`, scoring pass)

```python
query_lower = query.lower()
query_words = query_lower.split()
relevant_sections = []
lines = self.knowledge_base.split('\n')
for i, line in enumerate(lines):
    line_lower = line.lower()
    score = 0
    for word in query_words:
        if word in line_lower:
            score += 1
    if query_lower in line_lower:
        score += len(query_words)
    if score > 0:
        start = max(0, i-3)
        end = min(len(lines), i+4)
        context = '\n'.join(lines[start:end])
        relevant_sections.append((score, context, i))
```
-/

/-- The score the loop body computes for one corpus line. -/
def lineScore (query line : String) : Nat :=
  let query_lower := pyLower query
  let query_words := pySplit query_lower
  let line_lower := pyLower line
  let wordHits := query_words.foldl
    (fun score word => if pyIn word line_lower then score + 1 else score) 0
  if pyIn query_lower line_lower then wordHits + query_words.length else wordHits

/-- The context window around line `i`: `lines[max(0,i-3) : min(len,i+4)]`
joined with newlines (natural subtraction renders `max(0, i-3)`). -/
def contextAt (lines : List String) (i : Nat) : String :=
  String.intercalate "\n" ((lines.take (min lines.length (i + 4))).drop (i - 3))

/-- The full scoring pass: every line with positive score yields a
`(score, contextText, lineIndex)` triple, in line order. -/
def relevantSections (kb query : String) : List (Nat × String × Nat) :=
  let lines := pySplitNl kb
  lines.enum.foldl
    (fun acc p =>
      let score := lineScore query p.2
      if 0 < score then acc ++ [(score, contextAt lines p.1, p.1)] else acc)
    []

/-! ## Deduplicator (`search_knowledge`, selection pass)

```python
relevant_sections.sort(key=lambda x: x[0], reverse=True)
top_matches = [section[1] for section in relevant_sections[:4]]
unique_matches = []
for match in top_matches:
    is_duplicate = False
    for existing in unique_matches:
        if len(set(match.split()) & set(existing.split())) > len(match.split()) * 0.7:
            is_duplicate = True
            break
    if not is_duplicate:
        unique_matches.append(match)
return '\n\n---\n\n'.join(unique_matches[:3])
```

The only floating-point computation is `len(match.split()) * 0.7`: the
Python literal `0.7` denotes the IEEE-754 binary64 number nearest 7/10,
namely `6305039478318694 / 2^53`, and `int * float` is the correctly
rounded (round-to-nearest, ties-to-even) binary64 product.  We embed that
product exactly in integer arithmetic below. -/

/-- Significand of the binary64 number nearest `0.7`:
`fl(0.7) = 6305039478318694 / 2^53` (note `10 * 6305039478318694 = 7 * 2^53 - 4`). -/
def fl07sig : Nat := 6305039478318694

/-- Floor of the base-2 logarithm, fuel-structured so it kernel-reduces.
`log2Fuel f n` is correct whenever `n < 2^f`. -/
def log2Fuel : Nat → Nat → Nat
  | 0, _ => 0
  | f + 1, n => if n ≤ 1 then 0 else log2Fuel f (n / 2) + 1

/-- Round `a / d` to the nearest integer, ties to even (`d > 0`). -/
def rne (a d : Nat) : Nat :=
  let q := a / d
  let r := a % d
  if 2 * r < d then q
  else if d < 2 * r then q + 1
  else if q % 2 = 0 then q else q + 1

/-- Python `k > n * 0.7` for non-negative ints `k`, `n`: the exact product
`n * fl(0.7) = n * fl07sig / 2^53` is rounded to the nearest binary64
(round half to even at 53 significant bits), then compared exactly with
`k`.  (Conversion of `n` to float and the final int/float comparison are
exact for the sizes that occur.) -/
def pyMulGt07 (k n : Nat) : Bool :=
  if n = 0 then decide (0 < k)
  else
    let N := n * fl07sig
    let b := log2Fuel 128 N
    let s := b - 52
    let m := rne N (2 ^ s)
    decide (m * 2 ^ s < k * 2 ^ 53)

/-- `len(set(a.split()) & set(b.split()))`: number of distinct tokens of `a`
that also occur in `b`. -/
def interCard (a b : String) : Nat :=
  (((pySplit a).dedup).filter (fun w => w ∈ pySplit b)).length

/-- The loop's near-duplicate test of candidate `m` against accepted `e`. -/
def isDuplicate (m e : String) : Bool :=
  pyMulGt07 (interCard m e) (pySplit m).length

/-- One iteration of the deduplication loop: append the candidate unless it
is a near-duplicate of some already-accepted window. -/
def dedupStep (acc : List String) (m : String) : List String :=
  if acc.any (fun e => isDuplicate m e) then acc else acc ++ [m]

/-- The deduplication loop over `top_matches`. -/
def dedup (ms : List String) : List String :=
  ms.foldl dedupStep []

/-- Stable insertion of a scored section into a list sorted descending by
score: equal scores keep their existing order, the new (earlier-in-input)
element going first. -/
def insertDesc (x : Nat × String × Nat) :
    List (Nat × String × Nat) → List (Nat × String × Nat)
  | [] => [x]
  | y :: ys => if y.1 ≤ x.1 then x :: y :: ys else y :: insertDesc x ys

/-- `relevant_sections.sort(key=lambda x: x[0], reverse=True)`: Python's
sort is stable, and this insertion sort produces the unique stable
descending-by-score permutation. -/
def sortByScoreDesc (l : List (Nat × String × Nat)) : List (Nat × String × Nat) :=
  l.foldr insertDesc []

/-- The fixed separator joining surviving windows. -/
def sectionSep : String := "\n\n---\n\n"

/-- `top_matches`: the window texts of the four highest-ranked sections
(`[section[1] for section in relevant_sections[:4]]` after the sort). -/
def topWindows (relevant : List (Nat × String × Nat)) : List String :=
  ((sortByScoreDesc relevant).take 4).map (fun x => x.2.1)

/-- `unique_matches`: the deduplicated top windows. -/
def uniqueWindows (relevant : List (Nat × String × Nat)) : List String :=
  dedup (topWindows relevant)

/-- The assembly step `'\n\n---\n\n'.join(unique_matches[:3])`. -/
def assembleContext (ws : List String) : String :=
  String.intercalate sectionSep (ws.take 3)

/-- Selection + assembly: sort, keep the top 4 windows, deduplicate, join
the first 3 unique ones. -/
def select_context (relevant : List (Nat × String × Nat)) : String :=
  assembleContext (uniqueWindows relevant)

/-- `SimpleRAGAgent.search_knowledge` (`if not self.knowledge_base` is the
emptiness test on the string). -/
def search_knowledge (kb query : String) : String :=
  if kb = "" then "No knowledge base available"
  else
    let relevant := relevantSections kb query
    if relevant = [] then "No relevant information found in knowledge base"
    else select_context relevant

/-! ## Prompt builder (`SimpleRAGAgent.get_advanced_prompt`)

Each template is the f-string of the source with `{context}` and
`{user_input}` interpolated; the fourth (`else`) arm is the `simple`
template, which is also the inline prompt of `SimpleRAGAgent.run`
(the two literals in the source are character-for-character identical). -/

/-- The `simple` (default / fallback) template. -/
def simpleTemplate (context user_input : String) : String :=
  "You are an intelligent AI assistant with access to a knowledge base. " ++
  "Please provide helpful, accurate, and detailed responses.\n\n" ++
  "CONTEXT FROM KNOWLEDGE BASE:\n" ++ context ++ "\n\n" ++
  "USER QUESTION: " ++ user_input ++ "\n\n" ++
  "INSTRUCTIONS:\n" ++
  "- Use the provided context when relevant to answer the question\n" ++
  "- If the context doesn't contain relevant information, use your general knowledge\n" ++
  "- Be comprehensive but concise\n" ++
  "- Provide specific details when available\n" ++
  "- If you're unsure about something, say so rather than guessing\n\n" ++
  "RESPONSE:"

/-- The `enhanced` template. -/
def enhancedTemplate (context user_input : String) : String :=
  "You are an advanced AI assistant with enhanced contextual understanding. " ++
  "You have access to a comprehensive knowledge base and should provide detailed, " ++
  "nuanced responses.\n\n" ++
  "KNOWLEDGE BASE CONTEXT:\n" ++ context ++ "\n\n" ++
  "USER QUERY: " ++ user_input ++ "\n\n" ++
  "ENHANCED INSTRUCTIONS:\n" ++
  "- Analyze the query for implicit requirements and context\n" ++
  "- Use multi-layered reasoning to connect information across different sources\n" ++
  "- Provide comprehensive answers with supporting evidence\n" ++
  "- Consider alternative interpretations and edge cases\n" ++
  "- Structure your response with clear reasoning chains\n" ++
  "- When relevant, explain the methodology behind your conclusions\n" ++
  "- Identify any limitations or assumptions in your response\n\n" ++
  "Please provide a thorough, well-reasoned response:"

/-- The `analytical` template. -/
def analyticalTemplate (context user_input : String) : String :=
  "You are a specialized analytical AI assistant focused on systematic analysis " ++
  "and structured reasoning. Break down complex problems methodically.\n\n" ++
  "KNOWLEDGE BASE CONTEXT:\n" ++ context ++ "\n\n" ++
  "ANALYTICAL QUERY: " ++ user_input ++ "\n\n" ++
  "ANALYTICAL FRAMEWORK:\n" ++
  "1. PROBLEM DECOMPOSITION:\n" ++
  "   - Identify key components and relationships\n" ++
  "   - Determine relevant variables and constraints\n" ++
  "   - Map dependencies and causal relationships\n\n" ++
  "2. EVIDENCE ANALYSIS:\n" ++
  "   - Evaluate source credibility and relevance\n" ++
  "   - Identify patterns, trends, and anomalies\n" ++
  "   - Cross-reference multiple data points\n\n" ++
  "3. SYSTEMATIC REASONING:\n" ++
  "   - Apply logical frameworks and methodologies\n" ++
  "   - Consider multiple perspectives and scenarios\n" ++
  "   - Validate conclusions against available evidence\n\n" ++
  "4. SYNTHESIS AND RECOMMENDATIONS:\n" ++
  "   - Integrate findings into coherent insights\n" ++
  "   - Propose actionable recommendations\n" ++
  "   - Identify areas requiring further investigation\n\n" ++
  "Provide your analytical response following this structured approach:"

/-- The `creative` template. -/
def creativeTemplate (context user_input : String) : String :=
  "You are a creative and innovative AI assistant that thinks beyond conventional " ++
  "boundaries. Use imaginative approaches while maintaining accuracy.\n\n" ++
  "KNOWLEDGE BASE CONTEXT:\n" ++ context ++ "\n\n" ++
  "CREATIVE CHALLENGE: " ++ user_input ++ "\n\n" ++
  "CREATIVE INSTRUCTIONS:\n" ++
  "- Explore unconventional angles and perspectives\n" ++
  "- Generate novel connections between seemingly unrelated concepts\n" ++
  "- Use analogies, metaphors, and creative explanations\n" ++
  "- Propose innovative solutions or approaches\n" ++
  "- Think outside traditional frameworks while remaining grounded in facts\n" ++
  "- Encourage exploration of possibilities and \"what-if\" scenarios\n" ++
  "- Balance creativity with practical applicability\n\n" ++
  "Let your creativity flow while providing valuable insights:"

/-- `SimpleRAGAgent.get_advanced_prompt`: strategy dispatch with the
`simple` template as the `else` arm. -/
def get_advanced_prompt (user_input context strategy : String) : String :=
  if strategy = "enhanced" then enhancedTemplate context user_input
  else if strategy = "analytical" then analyticalTemplate context user_input
  else if strategy = "creative" then creativeTemplate context user_input
  else simpleTemplate context user_input

/-! ## Response post-processor (`SimpleRAGAgent.clean_for_voice`)

```python
def clean_for_voice(self, text: str) -> str:
    text = text.replace('**', '').replace('*', '')
    text = text.replace('```', '').replace('`', '')
    text = text.replace('\n', '. ')
    if len(text) > 500:
        text = text[:500] + "..."
    return text.strip()
```
-/

/-- The replacement chain of `clean_for_voice` before the length check. -/
def cleanPre (text : String) : String :=
  pyReplace (pyReplace (pyReplace (pyReplace (pyReplace
    text "**" "") "*" "") "```" "") "`" "") "\n" ". "

/-- Python string truncation `text[:n]` (first `n` code points). -/
def pyTake (text : String) (n : Nat) : String :=
  String.mk (text.toList.take n)

/-- Python `s.strip()`: drop whitespace from both ends. -/
def pyStrip (s : String) : String :=
  String.mk
    (((s.toList.dropWhile Char.isWhitespace).reverse.dropWhile
        Char.isWhitespace).reverse)

/-- `SimpleRAGAgent.clean_for_voice`. -/
def clean_for_voice (text : String) : String :=
  let t := cleanPre text
  let t := if 500 < t.length then pyTake t 500 ++ "..." else t
  pyStrip t

/-! ## Orchestrator (`SimpleRAGAgent.run` / `SimpleRAGAgent.run_advanced`)

The completion service (`OllamaLLM.invoke`) is the one external,
fallible collaborator; it is passed in as a function returning
`Except PyExc String`, where `PyExc` carries what the error handlers of
the source inspect: the exception class, `str(e)`, and an optional
`errno`. -/

/-- A raised Python exception, as the handlers observe it. -/
structure PyExc where
  excClass : String
  excStr : String
  excErrno : Option Int
deriving DecidableEq, Repr

/-- `errno.ECONNREFUSED` on Linux. -/
def ECONNREFUSED : Int := 111

/-- Parameters of an `OllamaLLM(...)` construction. -/
structure OllamaParams where
  model : String
  temperature : Rat
  top_p : Rat
  repeat_penalty : Rat
  num_ctx : Int
deriving DecidableEq, Repr

/-- The persistent state of a `SimpleRAGAgent`: the fields `__init__`
assigns to `self`. -/
structure Agent where
  llm : OllamaParams
  fast_mode : Bool
  knowledge_base : String
deriving DecidableEq, Repr

/-- `SimpleRAGAgent.__init__` (the knowledge base, loaded from files in the
source, is passed in). -/
def initAgent (fast_mode : Bool) (knowledge_base : String) : Agent :=
  { llm :=
      { model := if fast_mode then "llama3.2:1b" else "mistral:7b"
        temperature := 0.3
        top_p := 0.9
        repeat_penalty := 1.1
        num_ctx := if fast_mode then 8192 else 16384 }
    fast_mode := fast_mode
    knowledge_base := knowledge_base }

/-- Type of the completion-service collaborator. -/
def InvokeFn : Type := OllamaParams → String → Except PyExc String

/-- `SimpleRAGAgent.run`: search, build the inline (simple) prompt, invoke,
clean; any exception is caught and converted to the apology string.  The
method assigns no `self` attribute, so the agent state is returned
unchanged. -/
def run (invoke : InvokeFn) (a : Agent) (user_input : String) : String × Agent :=
  let context := search_knowledge a.knowledge_base user_input
  let prompt := simpleTemplate context user_input
  match invoke a.llm prompt with
  | .ok response => (clean_for_voice response, a)
  | .error e =>
      ("I encountered a technical error: " ++ e.excStr ++
        ". Please try again or contact support.", a)

/-- The connection-refused apology of `run_advanced` (the source literal
uses U+2019 right single quotation marks). -/
def connRefusedMsg : String :=
  "I’m unable to connect to the local LLM server. " ++
  "Please ensure it’s running and accessible, then try again or contact support."

/-- `SimpleRAGAgent.run_advanced`: builds a fresh `OllamaLLM` from the
per-call parameters, searches, builds the strategy prompt, invokes, cleans;
exceptions are caught, with a dedicated message when the exception is a
`ConnectionRefusedError` or carries `errno == ECONNREFUSED`.  No `self`
attribute is assigned, so the agent state is returned unchanged. -/
def run_advanced (invoke : InvokeFn) (a : Agent) (user_input : String)
    (temperature : Rat) (max_context : Int) (prompt_strategy : String) :
    String × Agent :=
  let advanced_llm : OllamaParams :=
    { model := "mistral:7b"
      temperature := temperature
      top_p := 0.9
      repeat_penalty := 1.1
      num_ctx := max_context }
  let context := search_knowledge a.knowledge_base user_input
  let prompt := get_advanced_prompt user_input context prompt_strategy
  match invoke advanced_llm prompt with
  | .ok response => (clean_for_voice response, a)
  | .error e =>
      (if e.excClass = "ConnectionRefusedError" ∨ e.excErrno = some ECONNREFUSED
       then connRefusedMsg
       else "I encountered a technical error in advanced mode: " ++ e.excStr ++
         ". Please try again or contact support.", a)

/-! # Theorems -/

/-! ## Helper lemmas -/

/-- A counting fold equals the length of the filtered list. -/
theorem foldl_count_eq {α : Type} (p : α → Bool) (l : List α) (n : Nat) :
    l.foldl (fun s w => if p w then s + 1 else s) n
      = n + (l.filter p).length := by
  induction l generalizing n with
  | nil => simp
  | cons x tl ih =>
    by_cases h : p x <;> simp [h, ih] <;> omega

/-- A conditional-append fold equals the accumulator followed by the
filtered, mapped list. -/
theorem foldl_filter_map_eq {α β : Type} (c : α → Prop) [DecidablePred c]
    (g : α → β) (l : List α) (acc : List β) :
    l.foldl (fun acc x => if c x then acc ++ [g x] else acc) acc
      = acc ++ (l.filter (fun x => decide (c x))).map g := by
  induction l generalizing acc with
  | nil => simp
  | cons x tl ih =>
    by_cases h : c x <;> simp [h, ih]

/-- The accumulator only grows along the deduplication fold. -/
theorem subset_foldl_dedupStep (ms : List String) :
    ∀ acc : List String, acc ⊆ ms.foldl dedupStep acc := by
  induction ms with
  | nil => intro acc; simp
  | cons x tl ih =>
    intro acc y hy
    apply ih (dedupStep acc x)
    unfold dedupStep
    split
    · exact hy
    · exact List.mem_append_left _ hy

/-- Every input of the deduplication fold is either accepted or is a
near-duplicate of an accepted window. -/
theorem mem_or_dup_foldl_dedupStep (ms : List String) :
    ∀ (acc : List String) (m : String), m ∈ ms →
      m ∈ ms.foldl dedupStep acc ∨
        ∃ e ∈ ms.foldl dedupStep acc, isDuplicate m e = true := by
  induction ms with
  | nil => simp
  | cons x tl ih =>
    intro acc m hm
    simp only [List.foldl_cons]
    rcases List.mem_cons.mp hm with rfl | htl
    · by_cases hdup : acc.any (fun e => isDuplicate m e)
      · right
        obtain ⟨e, he, hde⟩ := List.any_eq_true.mp hdup
        refine ⟨e, subset_foldl_dedupStep tl (dedupStep acc m) ?_, hde⟩
        unfold dedupStep
        rw [if_pos hdup]
        exact he
      · left
        apply subset_foldl_dedupStep tl (dedupStep acc m)
        unfold dedupStep
        rw [if_neg hdup]
        simp
    · exact ih (dedupStep acc x) m htl

/-- C7: the claim that `overlap ≥ size` and `size ≤ 0` are errors is false
on the code: with `overlap = 10 > 5 = size` and non-empty text the chunker
silently returns an empty chunk sequence instead of failing (the whole
document is dropped without an error). -/
theorem chunker_invalid_config_counterexample :
    process_document 5 10 "a b c" = .ok [] ∧
    ∀ msg, process_document 5 10 "a b c" ≠ .error msg := by
  refine ⟨rfl, fun msg h => ?_⟩
  rw [show process_document 5 10 "a b c" = .ok [] from rfl] at h
  exact Except.noConfusion h

/-- C7 (amended): on non-empty text, `overlap = size` does fail (Python
`range` rejects the zero step with a `ValueError`), but `overlap > size`
(which covers `size ≤ 0` for any non-negative overlap except
`overlap = size`) silently returns the empty chunk list rather than
raising an `InvalidConfig` error. -/
theorem chunker_invalid_config_amended (chunk_size overlap : Int)
    (text : String) (htext : text ≠ "") :
    (overlap = chunk_size →
      process_document chunk_size overlap text =
        .error "ValueError: range() arg 3 must not be zero") ∧
    (chunk_size < overlap →
      process_document chunk_size overlap text = .ok []) := by
  constructor <;> intro h <;>
    simp only [process_document, pyRange0, htext, if_neg, reduceIte]
  · have hz : chunk_size - overlap = 0 := by omega
    simp [hz]
  · have hz : ¬ (chunk_size - overlap = 0) := by omega
    have hp : ¬ (0 < chunk_size - overlap) := by omega
    simp only [hz, hp, reduceIte]
    rfl

/-- Witness for the amended C7 at concrete configurations. -/
theorem chunker_invalid_config_amended_witness :
    process_document 5 5 "a b c" =
      .error "ValueError: range() arg 3 must not be zero" ∧
    process_document 5 10 "a b c" = .ok [] :=
  ⟨(chunker_invalid_config_amended 5 5 "a b c" (by decide)).1 rfl,
   (chunker_invalid_config_amended 5 10 "a b c" (by decide)).2 (by decide)⟩

/-- C2: the claim that the assembled context length is bounded by every
(any) `maxChars` budget is false: the assembly step joins up to three whole
windows with no character budget at all, so a single long window already
exceeds a budget of 5 characters. -/
theorem assemble_budget_counterexample :
    (assembleContext ["abcdefgh"]).length = 8 ∧
    ¬ (assembleContext ["abcdefgh"]).length ≤ 5 := by
  constructor <;> decide

/-- C2 (amended): the assembled context is the join, with the fixed
separator, of a prefix of whole selected windows — the first
`min 3 (count)` of them — so truncation happens only at window boundaries
(trailing whole windows beyond the third are dropped, never partial
windows); no character budget `maxChars` is enforced. -/
theorem assemble_window_boundary_amended (ws : List String) :
    assembleContext ws =
      String.intercalate sectionSep (ws.take (min 3 ws.length)) ∧
    (ws.length ≤ 3 → assembleContext ws = String.intercalate sectionSep ws) := by
  constructor
  · unfold assembleContext
    congr 1
    exact List.take_eq_take.mpr (by omega)
  · intro h
    unfold assembleContext
    rw [List.take_of_length_le h]

/-- Witness for the amended C2: with at most three windows nothing at all
is dropped. -/
theorem assemble_window_boundary_amended_witness :
    assembleContext ["a", "b"] = String.intercalate sectionSep ["a", "b"] :=
  (assemble_window_boundary_amended ["a", "b"]).2 (by decide)

/-- C8: any unrecognized strategy value falls back to the `simple`
template: the prompt built for it is exactly the prompt built for
`"simple"`, for every query and context. -/
theorem prompt_unknown_strategy_fallback (user_input context strategy : String)
    (h1 : strategy ≠ "enhanced") (h2 : strategy ≠ "analytical")
    (h3 : strategy ≠ "creative") :
    get_advanced_prompt user_input context strategy =
      get_advanced_prompt user_input context "simple" := by
  unfold get_advanced_prompt
  rw [if_neg h1, if_neg h2, if_neg h3,
    if_neg (by decide : ¬ ("simple" : String) = "enhanced"),
    if_neg (by decide : ¬ ("simple" : String) = "analytical"),
    if_neg (by decide : ¬ ("simple" : String) = "creative")]

/-- Witness for C8 at the unrecognized strategy `"bogus"`. -/
theorem prompt_unknown_strategy_fallback_witness :
    get_advanced_prompt "q" "c" "bogus" = get_advanced_prompt "q" "c" "simple" :=
  prompt_unknown_strategy_fallback "q" "c" "bogus" (by decide) (by decide)
    (by decide)

/-- C10: `run_advanced` never mutates the persistent agent state — the
returned state equals the input state (all of `llm`, `fast_mode`,
`knowledge_base`), so subsequent `run` / `run_advanced` calls on the same
agent behave as if the advanced call never happened; moreover its visible
output is independent of the persistent `llm` and `fast_mode` fields (a
fresh LLM is built from the per-call parameters). -/
theorem run_advanced_frame (invoke : InvokeFn) (a : Agent) (user_input : String)
    (temperature : Rat) (max_context : Int) (prompt_strategy : String) :
    (run_advanced invoke a user_input temperature max_context prompt_strategy).2
      = a ∧
    (∀ (invoke2 : InvokeFn) (u2 : String),
      run invoke2
        (run_advanced invoke a user_input temperature max_context prompt_strategy).2 u2
        = run invoke2 a u2) ∧
    (∀ (invoke2 : InvokeFn) (u2 : String) (t2 : Rat) (m2 : Int) (s2 : String),
      run_advanced invoke2
        (run_advanced invoke a user_input temperature max_context prompt_strategy).2
        u2 t2 m2 s2
        = run_advanced invoke2 a u2 t2 m2 s2) ∧
    (∀ (llm1 llm2 : OllamaParams) (fm1 fm2 : Bool) (kb : String),
      (run_advanced invoke ⟨llm1, fm1, kb⟩ user_input temperature max_context
          prompt_strategy).1
        = (run_advanced invoke ⟨llm2, fm2, kb⟩ user_input temperature max_context
          prompt_strategy).1) := by
  have hframe : ∀ (b : Agent),
      (run_advanced invoke b user_input temperature max_context prompt_strategy).2
        = b := by
    intro b
    simp only [run_advanced]
    split <;> rfl
  refine ⟨hframe a, fun invoke2 u2 => by rw [hframe a],
    fun invoke2 u2 t2 m2 s2 => by rw [hframe a], fun llm1 llm2 fm1 fm2 kb => ?_⟩
  simp only [run_advanced]
  split <;> rfl

/-- C6: when the completion-service invocation fails with an exception, the
orchestrator returns a user-facing apology string (carrying the error kind:
`str(e)` in the generic arm, the connection wording in the
connection-refused arm) instead of propagating the fault. -/
theorem invoke_failure_caught (invoke : InvokeFn) (a : Agent)
    (user_input : String) (temperature : Rat) (max_context : Int)
    (prompt_strategy : String) (e e2 : PyExc)
    (hrun : invoke a.llm
      (simpleTemplate (search_knowledge a.knowledge_base user_input) user_input)
      = .error e)
    (hadv : invoke
      { model := "mistral:7b", temperature := temperature, top_p := 0.9,
        repeat_penalty := 1.1, num_ctx := max_context }
      (get_advanced_prompt user_input
        (search_knowledge a.knowledge_base user_input) prompt_strategy)
      = .error e2) :
    (run invoke a user_input).1 =
      "I encountered a technical error: " ++ e.excStr ++
        ". Please try again or contact support." ∧
    ((run_advanced invoke a user_input temperature max_context
        prompt_strategy).1 = connRefusedMsg ∨
     (run_advanced invoke a user_input temperature max_context
        prompt_strategy).1 =
      "I encountered a technical error in advanced mode: " ++ e2.excStr ++
        ". Please try again or contact support.") := by
  constructor
  · simp only [run]
    rw [hrun]
  · simp only [run_advanced]
    rw [hadv]
    by_cases hconn :
        e2.excClass = "ConnectionRefusedError" ∨ e2.excErrno = some ECONNREFUSED
    · left; simp [hconn]
    · right; simp [hconn]

/-- Witness for C6: a connection-refused completion service yields the
connection apology from `run_advanced` and the generic apology from `run`. -/
theorem invoke_failure_caught_witness :
    (run (fun _ _ => .error ⟨"ConnectionRefusedError", "connection refused", some 111⟩)
      (initAgent true "") "hello").1 =
      "I encountered a technical error: " ++ "connection refused" ++
        ". Please try again or contact support." ∧
    ((run_advanced
        (fun _ _ => .error ⟨"ConnectionRefusedError", "connection refused", some 111⟩)
        (initAgent true "") "hello" 0.3 16384 "simple").1 = connRefusedMsg ∨
     (run_advanced
        (fun _ _ => .error ⟨"ConnectionRefusedError", "connection refused", some 111⟩)
        (initAgent true "") "hello" 0.3 16384 "simple").1 =
      "I encountered a technical error in advanced mode: " ++
        "connection refused" ++ ". Please try again or contact support.") :=
  invoke_failure_caught
    (fun _ _ => .error ⟨"ConnectionRefusedError", "connection refused", some 111⟩)
    (initAgent true "") "hello" 0.3 16384 "simple"
    ⟨"ConnectionRefusedError", "connection refused", some 111⟩
    ⟨"ConnectionRefusedError", "connection refused", some 111⟩ rfl rfl

/-- C5: each corpus line scores one point per query word (duplicates
counted) occurring as a substring of the lowercased line, plus the query
word count as a phrase bonus when the whole lowercased query occurs in the
lowercased line; exactly the positive-score lines yield a window, carrying
that score and the 3-line-radius context. -/
theorem scoring_formula_and_windowing (kb query : String) :
    (∀ line : String,
      lineScore query line =
        ((pySplit (pyLower query)).filter
            (fun w => pyIn w (pyLower line))).length +
          (if pyIn (pyLower query) (pyLower line) then
            (pySplit (pyLower query)).length else 0)) ∧
    relevantSections kb query =
      ((pySplitNl kb).enum.filter
          (fun p => decide (0 < lineScore query p.2))).map
        (fun p => (lineScore query p.2, contextAt (pySplitNl kb) p.1, p.1)) := by
  constructor
  · intro line
    simp only [lineScore]
    rw [foldl_count_eq]
    by_cases h : pyIn (pyLower query) (pyLower line) = true <;> simp [h]
  · unfold relevantSections
    exact foldl_filter_map_eq (fun p => 0 < lineScore query p.2)
      (fun p => (lineScore query p.2, contextAt (pySplitNl kb) p.1, p.1))
      (pySplitNl kb).enum []

/-- C4: the claim that a short result means every scored window was
considered is false: selection first truncates the sorted candidates to the
top 4, so with five scored windows whose top four are mutual duplicates the
result has a single window while the fifth candidate — not a near-duplicate
of anything accepted — was never considered. -/
theorem selection_skips_lowranked_counterexample :
    (uniqueWindows [(5, "alpha beta", 0), (4, "alpha beta", 1),
        (3, "alpha beta", 2), (2, "alpha beta", 3), (1, "gamma delta", 4)]).length
      < 3 ∧
    "gamma delta" ∈ [(5, "alpha beta", 0), (4, "alpha beta", 1),
        (3, "alpha beta", 2), (2, "alpha beta", 3),
        (1, "gamma delta", 4)].map (fun x => x.2.1) ∧
    "gamma delta" ∉ uniqueWindows [(5, "alpha beta", 0), (4, "alpha beta", 1),
        (3, "alpha beta", 2), (2, "alpha beta", 3), (1, "gamma delta", 4)] ∧
    (∀ e ∈ uniqueWindows [(5, "alpha beta", 0), (4, "alpha beta", 1),
        (3, "alpha beta", 2), (2, "alpha beta", 3), (1, "gamma delta", 4)],
      isDuplicate "gamma delta" e = false) ∧
    select_context [(5, "alpha beta", 0), (4, "alpha beta", 1),
        (3, "alpha beta", 2), (2, "alpha beta", 3), (1, "gamma delta", 4)]
      = "alpha beta" := by
  decide

/-- C4 (amended): selection considers only the top 4 score-sorted
candidates: every window among those four is either accepted or rejected
as a near-duplicate of an accepted window, and at most the first 3 accepted
windows are returned; candidates ranked fifth or later are never examined,
so a short result does not mean the whole scored set was considered. -/
theorem selection_considers_top4_amended
    (relevant : List (Nat × String × Nat)) (m : String)
    (hm : m ∈ topWindows relevant) :
    (m ∈ uniqueWindows relevant ∨
      ∃ e ∈ uniqueWindows relevant, isDuplicate m e = true) ∧
    select_context relevant =
      String.intercalate sectionSep ((uniqueWindows relevant).take 3) := by
  constructor
  · exact mem_or_dup_foldl_dedupStep (topWindows relevant) [] m hm
  · rfl

/-- Witness for the amended C4 at a concrete scored set. -/
theorem selection_considers_top4_amended_witness :
    ("x" ∈ uniqueWindows [(1, "x", 0)] ∨
      ∃ e ∈ uniqueWindows [(1, "x", 0)], isDuplicate "x" e = true) ∧
    select_context [(1, "x", 0)] =
      String.intercalate sectionSep ((uniqueWindows [(1, "x", 0)]).take 3) :=
  selection_considers_top4_amended [(1, "x", 0)] "x" (by decide)

/-- Stripping never lengthens a string. -/
theorem pyStrip_length_le (s : String) : (pyStrip s).length ≤ s.length := by
  unfold pyStrip
  show (((s.toList.dropWhile Char.isWhitespace).reverse.dropWhile
      Char.isWhitespace).reverse).length ≤ s.toList.length
  rw [List.length_reverse]
  calc ((s.toList.dropWhile Char.isWhitespace).reverse.dropWhile
          Char.isWhitespace).length
      ≤ (s.toList.dropWhile Char.isWhitespace).reverse.length :=
        (List.dropWhile_suffix _).length_le
    _ = (s.toList.dropWhile Char.isWhitespace).length := List.length_reverse _
    _ ≤ s.toList.length := (List.dropWhile_suffix _).length_le

/-- Dropping leading whitespace from `l ++ "..."` either keeps the whole
dot tail with a (possibly empty) prefix, or reduces to the dot tail. -/
theorem dropWhile_ws_append_dots (l : List Char) :
    List.dropWhile Char.isWhitespace (l ++ ['.', '.', '.'])
        = List.dropWhile Char.isWhitespace l ++ ['.', '.', '.'] ∨
    List.dropWhile Char.isWhitespace (l ++ ['.', '.', '.']) = ['.', '.', '.'] := by
  induction l with
  | nil =>
    right
    simp [List.dropWhile]
  | cons c cs ih =>
    by_cases h : Char.isWhitespace c
    · simpa [List.dropWhile, h] using ih
    · left
      simp [List.dropWhile, h]

/-- Stripping a string that ends in `"..."` keeps the `"..."` suffix. -/
theorem pyStrip_keeps_dots (l : List Char) :
    ['.', '.', '.'] <:+ (pyStrip (String.mk (l ++ ['.', '.', '.']))).toList := by
  unfold pyStrip
  show ['.', '.', '.'] <:+
    (((l ++ ['.', '.', '.']).dropWhile Char.isWhitespace).reverse.dropWhile
        Char.isWhitespace).reverse
  have hdot : Char.isWhitespace '.' = false := by decide
  rcases dropWhile_ws_append_dots l with h | h <;> rw [h]
  · rw [List.reverse_append]
    show ['.', '.', '.'] <:+
      (('.' :: ('.' :: ('.' :: (List.dropWhile Char.isWhitespace l).reverse))).dropWhile
          Char.isWhitespace).reverse
    rw [List.dropWhile_cons_of_neg (by simp [hdot])]
    rw [List.reverse_cons, List.reverse_cons, List.reverse_cons]
    exact ⟨(List.dropWhile Char.isWhitespace l).reverse.reverse, by simp⟩
  · show ['.', '.', '.'] <:+
      ((['.', '.', '.'] : List Char).reverse.dropWhile Char.isWhitespace).reverse
    rw [show (['.', '.', '.'] : List Char).reverse = ['.', '.', '.'] from rfl]
    rw [List.dropWhile_cons_of_neg (by simp [hdot])]
    exact ⟨[], rfl⟩

/-- C9: `clean_for_voice` is a total deterministic function of its input;
when the post-replacement text exceeds 500 characters it is cut to its
first 500 characters with the ellipsis marker `"..."` appended (so the
result, after stripping, still ends in `"..."` and has at most 503
characters), and otherwise the text is returned stripped, with no marker
appended. -/
theorem clean_for_voice_spec (text : String) :
    (clean_for_voice text).length ≤ 503 ∧
    (500 < (cleanPre text).length →
      clean_for_voice text = pyStrip (pyTake (cleanPre text) 500 ++ "...") ∧
      "...".toList <:+ (clean_for_voice text).toList) ∧
    ((cleanPre text).length ≤ 500 → clean_for_voice text = pyStrip (cleanPre text)) := by
  have htrunc : 500 < (cleanPre text).length →
      clean_for_voice text = pyStrip (pyTake (cleanPre text) 500 ++ "...") := by
    intro h
    simp only [clean_for_voice]
    rw [if_pos h]
  have hkeep : (cleanPre text).length ≤ 500 →
      clean_for_voice text = pyStrip (cleanPre text) := by
    intro h
    simp only [clean_for_voice]
    rw [if_neg (by omega : ¬ 500 < (cleanPre text).length)]
  refine ⟨?_, fun h => ⟨htrunc h, ?_⟩, hkeep⟩
  · by_cases h : 500 < (cleanPre text).length
    · rw [htrunc h]
      calc (pyStrip (pyTake (cleanPre text) 500 ++ "...")).length
          ≤ (pyTake (cleanPre text) 500 ++ "...").length := pyStrip_length_le _
        _ ≤ 503 := by
            rw [String.length_append]
            have : (pyTake (cleanPre text) 500).length ≤ 500 := by
              show ((cleanPre text).toList.take 500).length ≤ 500
              simp
            simp only [show ("..." : String).length = 3 from rfl]
            omega
    · rw [hkeep (by omega)]
      calc (pyStrip (cleanPre text)).length ≤ (cleanPre text).length :=
            pyStrip_length_le _
        _ ≤ 503 := by omega
  · rw [htrunc h]
    have hrepr : pyTake (cleanPre text) 500 ++ "..."
        = String.mk ((cleanPre text).toList.take 500 ++ ['.', '.', '.']) := by
      show String.mk ((cleanPre text).toList.take 500) ++ "..." = _
      rfl
    rw [hrepr]
    exact pyStrip_keeps_dots _

set_option maxRecDepth 100000 in
/-- Witness for C9: a 501-character input is truncated and marked, a short
input is only stripped. -/
theorem clean_for_voice_spec_witness :
    "...".toList <:+
      (clean_for_voice (String.mk (List.replicate 501 'b'))).toList ∧
    clean_for_voice "  hi  " = pyStrip (cleanPre "  hi  ") :=
  ⟨((clean_for_voice_spec (String.mk (List.replicate 501 'b'))).2.1
      (by decide)).2,
   (clean_for_voice_spec "  hi  ").2.2 (by decide)⟩


/-- Bounds for the fuelled binary logarithm: correct below `2 ^ fuel`. -/
theorem log2Fuel_bounds :
    ∀ (f n : Nat), 0 < n → n < 2 ^ f →
      2 ^ (log2Fuel f n) ≤ n ∧ n < 2 ^ (log2Fuel f n + 1) := by
  intro f
  induction f with
  | zero =>
    intro n h1 h2
    simp at h2
    omega
  | succ f ih =>
    intro n h1 h2
    by_cases hle : n ≤ 1
    · have hn1 : n = 1 := by omega
      subst hn1
      simp [log2Fuel]
    · simp only [log2Fuel, if_neg hle]
      have hpos : 0 < n / 2 := by omega
      have hlt : n / 2 < 2 ^ f := by
        have he : (2 : Nat) ^ (f + 1) = 2 * 2 ^ f := by ring
        omega
      obtain ⟨hl, hu⟩ := ih (n / 2) hpos hlt
      have e1 : (2 : Nat) ^ (log2Fuel f (n / 2) + 1)
          = 2 * 2 ^ (log2Fuel f (n / 2)) := by ring
      have e2 : (2 : Nat) ^ (log2Fuel f (n / 2) + 1 + 1)
          = 2 * 2 ^ (log2Fuel f (n / 2) + 1) := by ring
      omega

/-- Round-to-nearest (ties to even) divides with error at most half the
denominator, two-sidedly. -/
theorem rne_bounds (a d : Nat) (hd : 0 < d) :
    2 * a ≤ 2 * (rne a d * d) + d ∧ 2 * (rne a d * d) ≤ 2 * a + d := by
  have hdm := Nat.div_add_mod a d
  have hr : a % d < d := Nat.mod_lt _ hd
  have hcomm : d * (a / d) = (a / d) * d := Nat.mul_comm ..
  have hsm : (a / d + 1) * d = (a / d) * d + d := by ring
  constructor <;>
    (simp only [rne]; split <;> (try split) <;> (try split) <;> omega)

/-- Only distinct tokens of the candidate are counted: the set-intersection
size never exceeds the token-list length. -/
theorem interCard_le (a b : String) : interCard a b ≤ (pySplit a).length :=
  Nat.le_trans (List.length_filter_le _ _)
    (List.Sublist.length_le (List.dedup_sublist _))

/-- Away from the exact `10 k = 7 n` boundary (and for any realistic
candidate size), Python `k > n * 0.7` agrees with the exact rational
comparison `k / n > 7 / 10`. -/
theorem pyMulGt07_eq_rat (k n : Nat) (hn : 0 < n) (hb : n ≤ 2 ^ 49)
    (hne : 10 * k ≠ 7 * n) :
    pyMulGt07 k n = true ↔ 7 * n < 10 * k := by
  have hn0 : ¬ n = 0 := by omega
  simp only [pyMulGt07, fl07sig]
  rw [if_neg hn0, decide_eq_true_eq]
  set N := n * 6305039478318694 with hN
  set b := log2Fuel 128 N with hbdef
  have hNpos : 0 < N := Nat.mul_pos hn (by norm_num)
  have hNlt : N < 2 ^ 128 := by
    calc N ≤ 2 ^ 49 * 6305039478318694 := Nat.mul_le_mul_right _ hb
      _ < 2 ^ 128 := by norm_num
  obtain ⟨hbl, hbu⟩ := log2Fuel_bounds 128 N hNpos hNlt
  have hb52 : 52 ≤ b := by
    by_contra hc
    push_neg at hc
    have h1 : N < 2 ^ 52 :=
      Nat.lt_of_lt_of_le hbu (Nat.pow_le_pow_right (by norm_num) (by omega))
    have h2 : 2 ^ 52 ≤ N := by
      calc (2 : Nat) ^ 52 ≤ 6305039478318694 := by norm_num
        _ ≤ N := Nat.le_mul_of_pos_left _ hn
    omega
  set s := b - 52 with hsdef
  set d := (2 : Nat) ^ s with hddef
  have hdpos : 0 < d := Nat.pos_pow_of_pos s (by norm_num)
  obtain ⟨hlo, hup⟩ := rne_bounds N d hdpos
  set m := rne N d with hmdef
  have hbd : (2 : Nat) ^ b = d * 2 ^ 52 := by
    rw [hddef, ← pow_add]
    congr 1
    omega
  have hd2n : d * 2 ^ 52 ≤ N := hbd ▸ hbl
  omega

/-- The ceiling division bound: `n * s` windows of stride `s` cover `x`
elements when `n = ⌈x / s⌉`. -/
theorem le_ceil_mul (x s : Nat) (hs : 0 < s) : x ≤ ((x + s - 1) / s) * s := by
  have h := Nat.div_add_mod (x + s - 1) s
  have h2 : (x + s - 1) % s < s := Nat.mod_lt _ hs
  have h3 : s * ((x + s - 1) / s) = ((x + s - 1) / s) * s := Nat.mul_comm ..
  omega

/-- A Python slice with non-negative bounds `[a : a+b]` is drop-then-take. -/
theorem pySlice_natCast {α : Type} (l : List α) (a b : Nat) :
    pySlice l (a : Int) ((a : Int) + (b : Int)) = (l.drop a).take b := by
  unfold pySlice pySliceIdx
  rw [if_neg (by omega : ¬ ((a : Int) < 0)),
    if_neg (by omega : ¬ ((a : Int) + (b : Int) < 0))]
  have ha : (a : Int).toNat = a := by omega
  have hab : ((a : Int) + (b : Int)).toNat = a + b := by omega
  rw [ha, hab]
  rcases le_or_lt l.length a with h | h
  · rw [Nat.min_eq_right h, Nat.min_eq_right (by omega)]
    rw [List.take_length, List.drop_length, List.drop_eq_nil_of_le h]
    simp
  · rw [Nat.min_eq_left (Nat.le_of_lt h), List.drop_take]
    apply List.take_eq_take.mpr
    simp only [List.length_drop]
    omega

/-- Successive stride-`s` windows of width `s`, `n` of them, reconstruct a
list of length at most `n * s`. -/
theorem flatten_strided_take (s : Nat) :
    ∀ (n : Nat) (l : List String), l.length ≤ n * s →
      ((List.range n).map (fun k => (l.drop (k * s)).take s)).flatten = l := by
  intro n
  induction n with
  | zero =>
    intro l hl
    have hl0 : l.length = 0 := by simpa using hl
    simp [List.length_eq_zero.mp hl0]
  | succ n ih =>
    intro l hl
    rw [List.range_succ_eq_map, List.map_cons, List.map_map, List.flatten_cons]
    have hmap :
        (List.range n).map ((fun k => (l.drop (k * s)).take s) ∘ Nat.succ)
          = (List.range n).map (fun k => ((l.drop s).drop (k * s)).take s) := by
      apply List.map_congr_left
      intro k _
      simp only [Function.comp_apply]
      rw [List.drop_drop]
      congr 2
      simp only [Nat.succ_eq_add_one]
      ring
    have hlen : (l.drop s).length <= n * s := by
      have hms : (n + 1) * s = n * s + s := Nat.succ_mul ..
      simp only [List.length_drop]
      omega
    rw [hmap, Nat.zero_mul, List.drop_zero, ih (l.drop s) hlen]
    exact List.take_append_drop s l

/-- Windows of width `ov + s` taken at stride `s` reconstruct the token
list: the first window whole, later windows minus their first `ov`
elements. -/
theorem reconstruct_windows (s ov n : Nat) (hn : 1 ≤ n)
    (tokens : List String) (hcov : tokens.length ≤ ov + n * s) :
    reconstruct ov ((List.range n).map
      (fun k => (tokens.drop (k * s)).take (ov + s))) = tokens := by
  obtain ⟨n', rfl⟩ : ∃ m, n = m + 1 := ⟨n - 1, by omega⟩
  rw [List.range_succ_eq_map, List.map_cons]
  simp only [reconstruct]
  rw [Nat.zero_mul, List.drop_zero, List.map_map, List.map_map]
  have hfun : ((List.drop ov ∘
        (fun k => (tokens.drop (k * s)).take (ov + s))) ∘ Nat.succ)
      = ((fun k => ((tokens.drop ov).drop (k * s)).take s) ∘ Nat.succ) := by
    funext k
    simp only [Function.comp_apply]
    rw [List.drop_take, List.drop_drop, List.drop_drop]
    have h1 : Nat.succ k * s + ov = ov + Nat.succ k * s := by omega
    have h2 : ov + s - ov = s := by omega
    rw [h1, h2]
  rw [hfun]
  have hflat := flatten_strided_take s (n' + 1) (tokens.drop ov)
    (by
      have hms : (n' + 1) * s = n' * s + s := Nat.succ_mul ..
      simp only [List.length_drop]
      omega)
  rw [List.range_succ_eq_map, List.map_cons, List.flatten_cons, List.map_map,
    Nat.zero_mul, List.drop_zero] at hflat
  rw [List.take_add, List.append_assoc, hflat]
  exact List.take_append_drop ov tokens

/-- `process_document` under a valid configuration (`overlap < size`,
non-empty text) produces exactly the `chunkWindows` token windows, each
joined with single spaces. -/
theorem process_document_eq_chunkWindows (chunk_size overlap : Nat)
    (text : String) (hlt : overlap < chunk_size) (htext : text ≠ "") :
    process_document (chunk_size : Int) (overlap : Int) text =
      .ok ((chunkWindows chunk_size overlap (pySplit text)).map (pyJoin " ")) := by
  simp only [process_document, pyRange0, htext, reduceIte, if_neg]
  have hstep0 : ¬ ((chunk_size : Int) - (overlap : Int) = 0) := by omega
  have hstepp : (0 : Int) < (chunk_size : Int) - (overlap : Int) := by omega
  rw [if_neg hstep0, if_pos hstepp]
  have htn : ((chunk_size : Int) - (overlap : Int)).toNat
      = chunk_size - overlap := by omega
  have hstop :
      (max (((pySplit text).length : Int) - (overlap : Int)) 0).toNat
        = (pySplit text).length - overlap := by omega
  rw [htn, hstop]
  show Except.ok _ = Except.ok _
  congr 1
  simp only [chunkWindows, List.map_map]
  apply List.map_congr_left
  intro k _
  simp only [Function.comp_apply]
  congr 1
  have hcast : (k : Int) * ((chunk_size : Int) - (overlap : Int))
      = ((k * (chunk_size - overlap) : Nat) : Int) := by
    have hsub : ((chunk_size - overlap : Nat) : Int)
        = (chunk_size : Int) - (overlap : Int) := by omega
    rw [Nat.cast_mul, hsub]
  rw [hcast]
  exact pySlice_natCast (pySplit text) (k * (chunk_size - overlap)) chunk_size

/-- C1: the no-trailing-token-loss claim is false as stated: with the
default configuration `size = 500`, `overlap = 50` (where
`overlap < size`), a one-token text produces no windows at all — the
loop bound `max(len(tokens) - overlap, 0)` is `0` whenever the text has
at most `overlap` tokens, so the whole text is dropped and no
concatenation of window portions can reconstruct it. -/
theorem chunker_tail_loss_counterexample :
    process_document 500 50 "a" = .ok [] ∧
    pySplit "a" = ["a"] ∧
    chunkWindows 500 50 (pySplit "a") = [] ∧
    reconstruct 50 (chunkWindows 500 50 (pySplit "a")) ≠ pySplit "a" := by
  refine ⟨rfl, rfl, rfl, ?_⟩
  decide

/-- C1 (amended): provided the text has **more than `overlap` tokens** (in
addition to `overlap < size`), the chunker loses nothing: it returns the
`chunkWindows` windows (each of at most `size` tokens), and the first
window followed by every later window minus its leading `overlap` tokens
concatenates back to the full token sequence.  Texts with `1 ≤ tokens ≤
overlap` produce no windows at all (see the counterexample). -/
theorem chunker_no_tail_loss_amended (chunk_size overlap : Nat)
    (text : String) (hlt : overlap < chunk_size)
    (htok : overlap < (pySplit text).length) :
    process_document (chunk_size : Int) (overlap : Int) text =
      .ok ((chunkWindows chunk_size overlap (pySplit text)).map (pyJoin " ")) ∧
    reconstruct overlap (chunkWindows chunk_size overlap (pySplit text))
      = pySplit text ∧
    ∀ w ∈ chunkWindows chunk_size overlap (pySplit text),
      w.length ≤ chunk_size := by
  have htext : text ≠ "" := by
    intro h
    rw [h] at htok
    simp [pySplit, pySplitAux] at htok
  refine ⟨process_document_eq_chunkWindows chunk_size overlap text hlt htext,
    ?_, ?_⟩
  · have hsteppos : 0 < chunk_size - overlap := by omega
    have hn1 : 1 ≤ ((pySplit text).length - overlap + (chunk_size - overlap) - 1)
        / (chunk_size - overlap) :=
      (Nat.one_le_div_iff hsteppos).mpr (by omega)
    have hcov : (pySplit text).length ≤ overlap +
        (((pySplit text).length - overlap + (chunk_size - overlap) - 1)
          / (chunk_size - overlap)) * (chunk_size - overlap) := by
      have := le_ceil_mul ((pySplit text).length - overlap)
        (chunk_size - overlap) hsteppos
      omega
    have hmain := reconstruct_windows (chunk_size - overlap) overlap _ hn1
      (pySplit text) hcov
    simp only [chunkWindows]
    have harg :
        (fun k => ((pySplit text).drop (k * (chunk_size - overlap))).take
            chunk_size)
          = (fun k => ((pySplit text).drop (k * (chunk_size - overlap))).take
            (overlap + (chunk_size - overlap))) := by
      funext k
      congr 1
      omega
    rw [harg]
    exact hmain
  · intro w hw
    simp only [chunkWindows, List.mem_map, List.mem_range] at hw
    obtain ⟨k, _, rfl⟩ := hw
    simp [List.length_take]

/-- Witness for the amended C1 at a concrete configuration. -/
theorem chunker_no_tail_loss_amended_witness :
    process_document 3 1 "a b c d" =
      .ok ((chunkWindows 3 1 (pySplit "a b c d")).map (pyJoin " ")) ∧
    reconstruct 1 (chunkWindows 3 1 (pySplit "a b c d")) = pySplit "a b c d" :=
  ⟨(chunker_no_tail_loss_amended 3 1 "a b c d" (by decide) (by decide)).1,
   (chunker_no_tail_loss_amended 3 1 "a b c d" (by decide) (by decide)).2.1⟩

/-- C3: the claim that a candidate is rejected whenever at least 70% of its
tokens already appear in an accepted window is false: with a 10-token
candidate sharing exactly 7 tokens (70%) with the accepted window, the
rejection test `7 > 10 * 0.7` evaluates to `False` in binary64 arithmetic
(`10 * 0.7` rounds to exactly `7.0`), so the candidate is accepted. -/
theorem dedup_threshold_counterexample :
    dedup ["w1 w2 w3 w4 w5 w6 w7 w8 w9 w10", "w1 w2 w3 w4 w5 w6 w7 x1 x2 x3"]
      = ["w1 w2 w3 w4 w5 w6 w7 w8 w9 w10", "w1 w2 w3 w4 w5 w6 w7 x1 x2 x3"] ∧
    10 * interCard "w1 w2 w3 w4 w5 w6 w7 x1 x2 x3" "w1 w2 w3 w4 w5 w6 w7 w8 w9 w10"
      = 7 * (pySplit "w1 w2 w3 w4 w5 w6 w7 x1 x2 x3").length := by
  constructor <;> decide

/-- C3 (amended): a candidate is accepted exactly when, for every accepted
window, the set-intersection size `k` does not exceed the binary64 value of
`n * 0.7` (`n` = the candidate token-list length, duplicates counted).
Away from the exact 70% boundary — whenever `10 k ≠ 7 n` — this coincides
with the claimed rational test: rejected by a window iff `k / n > 7 / 10`.
At exactly 70% the outcome depends on floating-point rounding (accepted at
`n = 10`, rejected at `n = 90`), so neither "rejected if ≥ 70%" nor
"accepted iff ≤ 70%" holds there. -/
theorem dedup_overlap_threshold_amended (m e : String)
    (hn : (pySplit m).length ≤ 2 ^ 49)
    (hne : 10 * interCard m e ≠ 7 * (pySplit m).length) :
    isDuplicate m e = true ↔
      7 * (pySplit m).length < 10 * interCard m e := by
  rcases Nat.eq_zero_or_pos (pySplit m).length with h0 | hpos
  · have hk : interCard m e = 0 := by
      have := interCard_le m e
      omega
    rw [hk, h0] at hne
    simp at hne
  · exact pyMulGt07_eq_rat (interCard m e) (pySplit m).length hpos hn hne

/-- Witness for the amended C3: a 4-token candidate sharing 3 tokens (75%)
with an accepted window is a duplicate. -/
theorem dedup_overlap_threshold_amended_witness :
    isDuplicate "a b c d" "a b c x" = true ∧
    7 * (pySplit "a b c d").length < 10 * interCard "a b c d" "a b c x" := by
  have h := dedup_overlap_threshold_amended "a b c d" "a b c x" (by decide)
    (by decide)
  exact ⟨h.mpr (by decide), by decide⟩

end RagAgent
